import Mathlib

/-!
Shallow embedding of the inspected slice of the Vortex mod manager:
the ARCtool subprocess wrapper (`ARCWrapper`), the Skyrim SE game
descriptor, the modal dialog component (`Dialog.tsx`) and the
extension manager (`ExtensionManager.ts`).

JavaScript strings are modelled as Lean `String`, JS arrays as `List`,
JS objects with dynamic string keys as association lists
(`List (String × α)`) with JS property-assignment semantics (`jsSet`),
and `undefined`-able values as `Option`.  Promises that resolve or
reject are modelled as `Except` values.  Effects that leave the slice
(Electron windows, redux dispatch, the i18next translation function,
logging) are not modelled; where a function of the slice merely calls
them the model drops the call, and this is noted next to the
definition.
-/

namespace Vortex

/-- Model of JavaScript `String.prototype.split` with a single-character
separator, on the character list of the string.  `"".split(sep)` is
`[""]`, a trailing separator yields a trailing empty piece — exactly the
JS behaviour for a non-regex, non-empty separator. -/
def jsSplit (sep : Char) : List Char → List (List Char)
  | [] => [[]]
  | c :: rest =>
    if c = sep then [] :: jsSplit sep rest
    else
      match jsSplit sep rest with
      | h :: t => (c :: h) :: t
      | [] => [[c]]

/-- `s.split(sep)` at the `String` level. -/
def jsSplitString (sep : Char) (s : String) : List String :=
  (jsSplit sep s.data).map (fun cs => String.mk cs)

/-- Model of JavaScript `String.prototype.trim`: strip leading and
trailing whitespace.  (JS trims the full Unicode whitespace class; the
inputs of this slice only ever carry ASCII whitespace, for which
`Char.isWhitespace` agrees.) -/
def jsTrim (s : String) : String :=
  String.mk (((s.data.dropWhile Char.isWhitespace).reverse.dropWhile Char.isWhitespace).reverse)

/-- Model of JavaScript `String.prototype.startsWith`. -/
def jsStartsWith (s pre : String) : Bool :=
  pre.data.isPrefixOf s.data

/-- Model of the JavaScript property assignment `obj[key] = value` on an
object represented as an association list: an existing binding is
overwritten in place (JS keeps the original insertion position of the
key), a new key is appended at the end. -/
def jsSet {α : Type} : List (String × α) → String → α → List (String × α)
  | [], k, v => [(k, v)]
  | (k1, v1) :: rest, k, v =>
    if k1 = k then (k, v) :: rest else (k1, v1) :: jsSet rest k v

/-! ### ARCWrapper (`ExtensionManager.ts`, third concatenated file)

`parseList` parses the verbose listing produced by ARCtool; `run`
spawns `ARCtool.exe` and settles a promise from its close event.  The
promise-returning `run` is split into the pure description of the
spawn call it makes (`runSpawn`) and the pure settlement computed by
its `close` handler from the collected stream data (`runClose`). -/

/-- A parsed `IListEntry`.  The source builds each entry as a plain JS
object `{ path: value }` that subsequently receives arbitrary
string-keyed attributes via `current[key] = value`, so an entry is
modelled as a JS object: an association list (the `path` property is
the binding of key `"path"`). -/
abbrev ListEntry := List (String × String)

/-- `line.trim().split('=')`, kept when it has exactly two parts
(`if (arr.length !== 2) return;`). -/
def lineKV (line : String) : Option (String × String) :=
  match jsSplitString '=' (jsTrim line) with
  | [key, value] => some (key, value)
  | _ => none

/-- The body of the `forEach` loop of `ARCWrapper.parseList`, acting on
the loop state `(res, current)`. -/
def parseStep (st : List ListEntry × Option ListEntry) (line : String) :
    List ListEntry × Option ListEntry :=
  match jsSplitString '=' (jsTrim line) with
  | [key, value] =>
    if key = "Path" then
      match st.2 with
      | some cur => (st.1 ++ [cur], some [("path", value)])
      | none => (st.1, some [("path", value)])
    else
      match st.2 with
      | some cur => (st.1, some (jsSet cur key value))
      | none => st
  | _ => st

/-- The loop body of `parseStep` restricted to lines that did split into
exactly two parts. -/
def kvStep (st : List ListEntry × Option ListEntry) (kv : String × String) :
    List ListEntry × Option ListEntry :=
  if kv.1 = "Path" then
    match st.2 with
    | some cur => (st.1 ++ [cur], some [("path", kv.2)])
    | none => (st.1, some [("path", kv.2)])
  else
    match st.2 with
    | some cur => (st.1, some (jsSet cur kv.1 kv.2))
    | none => st

/-- `ARCWrapper.parseList`: fold the loop body over `input.split('\n')`
and return `res`.  Note that the source returns `res` without pushing
the still-open `current` entry. -/
def parseList (input : String) : List ListEntry :=
  ((jsSplitString '\n' input).foldl parseStep ([], none)).1

/-- Grouping of key/value lines into entries as the specification claim
words it: one entry per `Path=` line, in input order, each carrying the
key/value lines that follow its `Path` line up to the next `Path` line.
The still-open final entry is emitted at the end of the input. -/
def buildEntries : Option ListEntry → List (String × String) → List ListEntry
  | none, [] => []
  | some cur, [] => [cur]
  | cur?, (k, v) :: rest =>
    if k = "Path" then
      match cur? with
      | some cur => cur :: buildEntries (some [("path", v)]) rest
      | none => buildEntries (some [("path", v)]) rest
    else
      match cur? with
      | some cur => buildEntries (some (jsSet cur k v)) rest
      | none => buildEntries none rest

/-- The claim's description of `parseList`, assembled from its words:
split into lines, keep the lines that split on `=` into exactly two
parts, and group them into one entry per `Path=` line. -/
def specParseList (input : String) : List ListEntry :=
  buildEntries none ((jsSplitString '\n' input).filterMap lineKV)

/-- A data event on one of the child process's output streams. -/
inductive StreamEvent : Type
  | stdout (data : String)
  | stderr (data : String)
deriving DecidableEq

/-- The error lines one stream event contributes to the `errorLines`
array of `ARCWrapper.run`: stdout chunks are split into lines and the
lines starting with `'Error'` are kept; stderr chunks are split into
lines and every line is kept. -/
def evErrorLines : StreamEvent → List String
  | .stdout data => (jsSplitString '\n' data).filter (fun line => jsStartsWith line "Error")
  | .stderr data => jsSplitString '\n' data

/-- The `errorLines` array collected by the `data` handlers of
`ARCWrapper.run` over the stream events received before `close`. -/
def errorLinesOf (events : List StreamEvent) : List String :=
  events.foldl (fun acc ev => acc ++ evErrorLines ev) []

/-- The settlement computed by the `close` handler of `ARCWrapper.run`:
reject naming the status code when it is non-zero, otherwise reject
with the joined collected error lines when any were collected,
otherwise resolve. -/
def runClose (events : List StreamEvent) (code : Int) : Except String Unit :=
  if code ≠ 0 then
    Except.error ("ARCtool.exe failed with status code " ++ toString code)
  else if errorLinesOf events ≠ [] then
    Except.error (String.intercalate "\n" (errorLinesOf events))
  else
    Except.ok ()

/-- The game selector union type of `IARCOptions.game`. -/
inductive ArcGame : Type
  | DD | REHD | RE5 | RE6 | REV | REV2 | DMC4 | DMC4SE | UMVC3
deriving DecidableEq

/-- The string literal a game selector stands for. -/
def ArcGame.str : ArcGame → String
  | .DD => "DD"
  | .REHD => "REHD"
  | .RE5 => "RE5"
  | .RE6 => "RE6"
  | .REV => "REV"
  | .REV2 => "REV2"
  | .DMC4 => "DMC4"
  | .DMC4SE => "DMC4SE"
  | .UMVC3 => "UMVC3"

/-- `IARCOptions`. -/
structure IARCOptions : Type where
  compression : Option Bool := none
  forceCompression : Option Bool := none
  game : Option ArcGame := none

/-- The spawn call made by `ARCWrapper.run`: the executable name and the
argument array.  `options.game || '-DD'` is modelled with `Option`;
every value of the `game` union is a non-empty string, hence truthy. -/
def runSpawn (command : String) (parameters : List String) (options : IARCOptions) :
    String × List String :=
  ("ARCtool.exe",
    ["-" ++ command,
     (match options.game with
      | some g => g.str
      | none => "-DD"),
     "-pc"] ++ parameters)

/-! ### Skyrim SE game descriptor (`ExtensionManager.ts`, second
concatenated file, and the `IGame` interface)

`queryPath` (a Windows-registry lookup) and `iniFilePath` (built from
the Electron `documents` path) depend on collaborators outside the
slice and are not part of the pure embedding; all remaining fields are
constant data. -/

/-- `ITool`, with the fields the descriptor file populates (the
interface declaration itself is outside the inspected slice; the field
set is taken from the tool literals and the `IGame` declaration). -/
structure ITool : Type where
  id : String
  name : String
  logo : String
  executable : Unit → String
  parameters : List String := []
  requiredFiles : List String

/-- `IGame` (from the interface declaration), restricted to the pure
fields. -/
structure IGame : Type where
  id : String
  name : String
  mergeMods : Bool
  supportedTools : List ITool
  queryModPath : Unit → String
  logo : String
  executable : Unit → String
  requiredFiles : List String

/-- The `tools` array of the descriptor file. -/
def tools : List ITool :=
  [ { id := "SSEEdit",
      name := "SSEEdit",
      logo := "tes5edit.png",
      executable := fun _ => "sseedit.exe",
      requiredFiles := ["tes5edit.exe"] },
    { id := "WryeBash",
      name := "WryeBash",
      logo := "wrye.png",
      executable := fun _ => "wryebash.exe",
      requiredFiles := ["wryebash.exe"] },
    { id := "loot",
      name := "LOOT",
      logo := "loot.png",
      executable := fun _ => "loot.exe",
      parameters := ["--game=skyrimse"],
      requiredFiles := ["loot.exe"] },
    { id := "FNIS",
      name := "FNIS",
      logo := "fnis.png",
      executable := fun _ => "GenerateFNISForUsers.exe",
      requiredFiles := ["GenerateFNISForUsers.exe"] } ]

/-- The `game` constant of the descriptor file. -/
def game : IGame :=
  { id := "skyrimse",
    name := "Skyrim Special Edition",
    mergeMods := true,
    supportedTools := tools,
    queryModPath := fun _ => "./data",
    logo := "logo.png",
    executable := fun _ => "SkyrimSE.exe",
    requiredFiles := ["SkyrimSE.exe"] }

/-! ### The Dialog component (`Dialog.tsx`)

The component is a function of its connected props (the queued
`dialogs` from the store) and its local state.  React re-rendering,
window manipulation (`remote.getCurrentWindow`), focus handling and the
i18next translation function `t` are outside the slice; `t` is taken
as the identity where the rendered output is described. -/

/-- `ICheckbox` (used for both checkboxes and radio choices). -/
structure ICheckbox : Type where
  id : String
  text : String
  value : Bool
deriving DecidableEq

/-- `IInput`. -/
structure IInput : Type where
  id : String
  label : Option String := none
  value : Option String := none
  placeholder : Option String := none
deriving DecidableEq

/-- An entry of a `DisabledActions` list as the component consumes it:
the widget it points at, the actions it disables, and its error
text. -/
structure DisabledAction : Type where
  id : String
  actions : List String
  errorText : String
deriving DecidableEq

/-- The `options` sub-object of `IDialogContent`. -/
structure IDialogOptions : Type where
  translated : Option Bool := none
  wrap : Option Bool := none
  hideMessage : Option Bool := none
deriving DecidableEq

/-- The widget/content fields of `IDialogContent` (everything except
the `condition` callback, which is split off below because a function
field cannot mention the structure that contains it). -/
structure DialogContentData : Type where
  text : Option String := none
  message : Option String := none
  bbcode : Option String := none
  htmlFile : Option String := none
  htmlText : Option String := none
  checkboxes : Option (List ICheckbox) := none
  choices : Option (List ICheckbox) := none
  input : Option (List IInput) := none
  links : Option (List String) := none
  options : Option IDialogOptions := none

/-- `IDialogContent`: the content data plus the optional `condition`
validation callback.  In the source the callback receives the whole
content object; here it receives the data part, which is all the
component's state updates ever change. -/
structure IDialogContent : Type where
  data : DialogContentData
  condition : Option (DialogContentData → List DisabledAction) := none

/-- `IDialog`, a queued dialog description.  `type` is a string union
(`DialogType`) whose declaration is outside the slice; it is modelled
as a string, matching the `switch` in `iconForType`. -/
structure IDialog : Type where
  id : String
  type : String
  title : String
  content : IDialogContent
  actions : List String
  defaultAction : Option String := none

/-- `IComponentState`.  `disabledActions` is `Option` because
`validateContent` defensively checks it against `undefined`. -/
structure IComponentState : Type where
  currentDialogId : Option String
  dialogState : Option IDialogContent
  disabledActions : Option (List DisabledAction)

/-- The state installed by the constructor. -/
def initialState : IComponentState :=
  { currentDialogId := none, dialogState := none, disabledActions := some [] }

/-- The icon element produced by `iconForType`. -/
structure RenderedIcon : Type where
  name : String
  className : String
deriving DecidableEq

/-- `Dialog.iconForType`: the `switch` over the dialog type, with
`null` as the default case. -/
def iconForType (type : String) : Option RenderedIcon :=
  if type = "info" then some { name := "dialog-info", className := "icon-info" }
  else if type = "error" then some { name := "dialog-error", className := "icon-error" }
  else if type = "question" then some { name := "dialog-question", className := "icon-question" }
  else none

/-- `Dialog.translateParts` with the translation function taken as the
identity: split by linebreak, then by tab, and join again replacing
tabs with spaces. -/
def translateParts (message : String) : String :=
  String.intercalate "\n"
    ((jsSplitString '\n' message).map
      (fun line => String.intercalate " " (jsSplitString '\t' line)))

/-- One control pushed by `renderContent`. -/
inductive Control : Type
  | text (s : String)
  | message (wrap : String) (hidden : Bool) (s : String)
  | bbcode (s : String)
  | htmlFile (src : String)
  | htmlText (s : String)
  | checkboxes (boxes : List ICheckbox)
  | choices (boxes : List ICheckbox)
  | inputs (forms : List IInput)
  | links (labels : List String)
deriving DecidableEq

/-- `Dialog.renderContent`: the sequence of controls pushed for a
content object.  `if (content.text)` is a truthiness test, so an empty
string is skipped; `message`, `bbcode` and the `htmlFile`/`htmlText`/
`checkboxes`/`choices`/`input`/`links` chain test against `undefined`,
and the chain is an `else if` cascade. -/
def renderContent (content : IDialogContent) : List Control :=
  let d := content.data
  let controls : List Control :=
    match d.text with
    | some s => if s ≠ "" then [Control.text s] else []
    | none => []
  let controls : List Control :=
    match d.message with
    | some m =>
      let wrap : String :=
        match d.options with
        | some o => if o.wrap = some true then "on" else "off"
        | none => "off"
      let hidden : Bool :=
        match d.options with
        | some o => o.hideMessage = some true
        | none => false
      controls ++ [Control.message wrap hidden (translateParts m)]
    | none => controls
  let controls : List Control :=
    match d.bbcode with
    | some s => controls ++ [Control.bbcode s]
    | none => controls
  let controls : List Control :=
    match d.htmlFile with
    | some f => controls ++ [Control.htmlFile ("file://" ++ f)]
    | none =>
      match d.htmlText with
      | some s => controls ++ [Control.htmlText s]
      | none =>
        match d.checkboxes with
        | some boxes => controls ++ [Control.checkboxes boxes]
        | none =>
          match d.choices with
          | some boxes => controls ++ [Control.choices boxes]
          | none =>
            match d.input with
            | some forms => controls ++ [Control.inputs forms]
            | none =>
              match d.links with
              | some ls => controls ++ [Control.links ls]
              | none => controls
  controls

/-- The `Action` button element rendered for one action name. -/
structure RenderedAction : Type where
  action : String
  isDefault : Bool
  isDisabled : Bool
deriving DecidableEq

/-- `Dialog.renderAction`: the button is disabled when some entry of
`disabledActions` lists the action. -/
def renderAction (disabledActions : List DisabledAction) (action : String)
    (isDefault : Bool) : RenderedAction :=
  { action := action,
    isDefault := isDefault,
    isDisabled := disabledActions.any (fun res => res.actions.any (fun act => act = action)) }

/-- The modal element produced by a non-null `render`. -/
structure RenderedDialog : Type where
  modalClass : String
  icon : Option RenderedIcon
  title : String
  content : List Control
  actionButtons : List RenderedAction

/-- `Dialog.render`: `null` unless the queue is non-empty and the
component state holds a dialog content.  `this.state.disabledActions`
is read through `getD []`: it is initialised to `[]` and only ever
assigned lists, so it is never `undefined` at render time. -/
def render (dialogs : List IDialog) (st : IComponentState) : Option RenderedDialog :=
  match dialogs[0]?, st.dialogState with
  | some dialog, some dialogState =>
    let type : String :=
      if dialog.content.data.htmlFile ≠ none ∨ dialog.content.data.htmlText ≠ none
      then "wide" else "regular"
    some
      { modalClass := "common-dialog-" ++ type,
        icon := iconForType dialog.type,
        title := dialog.title,
        content := renderContent dialogState,
        actionButtons :=
          dialog.actions.map (fun action =>
            renderAction (st.disabledActions.getD []) action
              (some action = dialog.defaultAction)) }
  | _, _ => none

/-- `Dialog.validateContent`, evaluated against the state's (possibly
stale) `disabledActions` and a content object: `undefined` when the
guard fires, otherwise the condition's result (re-set to `[]` when
empty). -/
def validateContent (st : IComponentState) (dialogState : IDialogContent) :
    Option (List DisabledAction) :=
  match st.disabledActions, dialogState.condition with
  | none, _ => none
  | some _, none => none
  | some _, some f =>
    let res := f dialogState.data
    some (if res.length > 0 then res else [])

/-- The common tail of the state-updating handlers: keep `newState`
as-is when `validateContent` returned `undefined`, otherwise overwrite
its `disabledActions`. -/
def applyValidation (oldState newState : IComponentState)
    (content : IDialogContent) : IComponentState :=
  match validateContent oldState content with
  | some newMap => { newState with disabledActions := some newMap }
  | none => newState

/-- `Dialog.componentWillMount`. -/
def componentWillMount (st : IComponentState) (dialogs : List IDialog) : IComponentState :=
  match dialogs with
  | [] => st
  | d :: _ =>
    { st with currentDialogId := some d.id, dialogState := some d.content }

/-- `Dialog.componentWillReceiveProps`.  The window restore/show calls
are Electron effects outside the slice. -/
def componentWillReceiveProps (st : IComponentState) (dialogs : List IDialog) :
    IComponentState :=
  match dialogs with
  | [] => st
  | d :: _ =>
    if some d.id = st.currentDialogId then st
    else
      let newState :=
        { st with currentDialogId := some d.id, dialogState := some d.content }
      applyValidation st newState d.content

/-- The id extraction of `changeInput`:
`evt.currentTarget.id.split('-').slice(1).join('-')` (the DOM id is
`dialoginput-` followed by the input's id). -/
def inputDomToId (domId : String) : String :=
  String.intercalate "-" ((jsSplitString '-' domId).drop 1)

/-- `Dialog.changeInput`.  When the state holds no content or no input
list the source would throw a `TypeError`, and when `findIndex` returns
`-1` the source splices at `-1`; no claim reaches those paths and the
model leaves the state unchanged there. -/
def changeInput (st : IComponentState) (domId newValue : String) : IComponentState :=
  match st.dialogState with
  | none => st
  | some content =>
    match content.data.input with
    | none => st
    | some inputs =>
      let id := inputDomToId domId
      let idx := inputs.findIdx (fun form => form.id = id)
      match inputs[idx]? with
      | none => st
      | some old =>
        let newInput := { old with value := some newValue }
        let newContent :=
          { content with data := { content.data with input := some (inputs.set idx newInput) } }
        let newState := { st with dialogState := some newContent }
        applyValidation st newState newContent

/-- `Dialog.toggleCheckbox`.  The JSON round-trip deep copy is the
identity on checkbox records; the `-1` index path (which would throw in
the source) leaves the state unchanged, as no claim reaches it. -/
def toggleCheckbox (st : IComponentState) (domId : String) : IComponentState :=
  match st.dialogState with
  | none => st
  | some content =>
    match content.data.checkboxes with
    | none => st
    | some boxes =>
      let idx := boxes.findIdx (fun box => box.id = domId)
      match boxes[idx]? with
      | none => st
      | some old =>
        let newBoxes := boxes.set idx { old with value := !old.value }
        let newContent :=
          { content with data := { content.data with checkboxes := some newBoxes } }
        let newState := { st with dialogState := some newContent }
        applyValidation st newState newContent

/-- `Dialog.toggleRadio`: every choice is rebuilt with `value: false`,
then the entry at the clicked index is set to `true`.  The `-1` index
path (which would throw in the source) leaves the state unchanged, as
no claim reaches it. -/
def toggleRadio (st : IComponentState) (domId : String) : IComponentState :=
  match st.dialogState with
  | none => st
  | some content =>
    match content.data.choices with
    | none => st
    | some choices =>
      let idx := choices.findIdx (fun box => box.id = domId)
      match choices[idx]? with
      | none => st
      | some clicked =>
        let newChoices :=
          (choices.map (fun choice => ICheckbox.mk choice.id choice.text false)).set idx
            (ICheckbox.mk clicked.id clicked.text true)
        let newContent :=
          { content with data := { content.data with choices := some newChoices } }
        let newState := { st with dialogState := some newContent }
        applyValidation st newState newContent

/-- A value stored in the `data` record handed to `onDismiss`: a
checkbox or choice carries its boolean, an input its (possibly
undefined) string. -/
inductive DialogValue : Type
  | bool (b : Bool)
  | str (s : Option String)
deriving DecidableEq

/-- The single `onDismiss` call made by `Dialog.dismiss`. -/
structure DismissCall : Type where
  id : String
  action : String
  data : List (String × DialogValue)

/-- `Dialog.dismiss`: build the `data` object from the checkboxes, then
the choices, then the inputs of the current dialog state, and call
`onDismiss` once with the head dialog's id, the pressed action and that
object.  With an empty queue or no dialog state the source would throw;
the model makes no call there. -/
def dismiss (dialogs : List IDialog) (st : IComponentState) (action : String) :
    Option DismissCall :=
  match dialogs, st.dialogState with
  | dialog :: _, some dialogState =>
    let data : List (String × DialogValue) := []
    let data :=
      match dialogState.data.checkboxes with
      | some boxes =>
        boxes.foldl (fun acc box => jsSet acc box.id (DialogValue.bool box.value)) data
      | none => data
    let data :=
      match dialogState.data.choices with
      | some boxes =>
        boxes.foldl (fun acc box => jsSet acc box.id (DialogValue.bool box.value)) data
      | none => data
    let data :=
      match dialogState.data.input with
      | some inputs =>
        inputs.foldl (fun acc inp => jsSet acc inp.id (DialogValue.str inp.value)) data
      | none => data
    some { id := dialog.id, action := action, data := data }
  | _, _ => none

/-! ### ExtensionManager (`ExtensionManager.ts`, first concatenated file)

Only the pure shapes the claims need are modelled: the
`onStateChange` registry built inside `setStore`, the redux-watcher
handler it installs, and the dynamic extension loading.  Redux itself,
`ReduxWatcher`, Electron and the mod database are outside the slice. -/

/-- An `IStateChangeCallback` as the registry sees it: an abstract
identity plus whether invoking it throws (the handler wraps every
invocation in `try`/`catch`, so only the thrown-or-not distinction is
observable to the rest of the loop). -/
structure StateCallback : Type where
  id : Nat
  throws : Bool
deriving DecidableEq

/-- `mWatches`, a JS object keyed by the `'.'`-joined watch path. -/
abbrev WatcherRegistry := List (String × List StateCallback)

/-- `watchPath.join('.')`. -/
def watchKey (watchPath : List String) : String :=
  String.intercalate "." watchPath

/-- The `onStateChange` function installed by `setStore`: on a fresh
key an empty list is created (and the redux watcher registered, once),
then the callback is pushed onto the key's list. -/
def onStateChange (reg : WatcherRegistry) (watchPath : List String)
    (callback : StateCallback) : WatcherRegistry :=
  let key := watchKey watchPath
  match reg.lookup key with
  | none => jsSet reg key ([] ++ [callback])
  | some cbs => jsSet reg key (cbs ++ [callback])

/-- The invocation records produced by the `for` loop of the watch
handler over the key's callback list: each callback is called with
`(prevValue, currentValue)`; a callback that throws is caught (the
handler logs and the loop continues), so the tail is processed either
way. -/
def runCallbacks : List StateCallback → Nat → Nat → List (Nat × Nat × Nat)
  | [], _, _ => []
  | cb :: rest, prevValue, currentValue =>
    if cb.throws then
      (cb.id, prevValue, currentValue) :: runCallbacks rest prevValue currentValue
    else
      (cb.id, prevValue, currentValue) :: runCallbacks rest prevValue currentValue

/-- The watch handler registered for a key: when `currentValue` equals
the captured `lastValue` it returns without invoking anything,
otherwise it updates `lastValue` and runs every callback currently
registered for the key.  Watched values are modelled as `Nat`.  Returns
the invocation records and the new `lastValue`. -/
def fireWatch (cbs : List StateCallback) (lastValue : Option Nat)
    (prevValue currentValue : Nat) : List (Nat × Nat × Nat) × Option Nat :=
  if some currentValue = lastValue then ([], lastValue)
  else (runCallbacks cbs prevValue currentValue, some currentValue)

instance {ε α : Type} [DecidableEq ε] [DecidableEq α] : DecidableEq (Except ε α) := fun x y =>
  match x, y with
  | Except.ok a, Except.ok b =>
    decidable_of_iff (a = b) ⟨fun h => h ▸ rfl, fun h => by injection h⟩
  | Except.error e, Except.error f =>
    decidable_of_iff (e = f) ⟨fun h => h ▸ rfl, fun h => by injection h⟩
  | Except.ok _, Except.error _ => isFalse (fun h => by injection h)
  | Except.error _, Except.ok _ => isFalse (fun h => by injection h)

/-- A directory entry of the extensions directory as
`loadDynamicExtensions` observes it: its name, whether `statSync`
reports a directory, whether `index.js` exists in it, and what
`require(indexPath).default` produces — either the module's init
function (an abstract token) or a thrown error message. -/
structure FSEntry : Type where
  name : String
  isDirectory : Bool
  hasIndexJs : Bool
  requireResult : Except String Nat
deriving DecidableEq

/-- The extensions directory as the filesystem presents it. -/
structure ExtensionsDir : Type where
  present : Bool
  entries : List FSEntry
deriving DecidableEq

/-- `IRegisteredExtension`; the init function is the abstract token the
module load produced. -/
structure IRegisteredExtension : Type where
  name : String
  initFunc : Nat
deriving DecidableEq

/-- The outcome of `loadDynamicExtensions`: the returned registrations
(the source's array still has element type `IRegisteredExtension`
after the `undefined` filter, hence `Option`) and whether the missing
directory was created. -/
structure LoadResult : Type where
  registrations : List (Option IRegisteredExtension)
  createdDir : Bool
deriving DecidableEq

/-- `ExtensionManager.loadDynamicExtension`: `undefined` when
`index.js` is missing, otherwise the registration named by the
directory's basename; a throwing `require` propagates. -/
def loadDynamicExtension (entry : FSEntry) : Except String (Option IRegisteredExtension) :=
  if entry.hasIndexJs then
    match entry.requireResult with
    | Except.ok f => Except.ok (some { name := entry.name, initFunc := f })
    | Except.error e => Except.error e
  else
    Except.ok none

/-- `ExtensionManager.loadDynamicExtensions`: a missing directory is
created and yields `[]`; otherwise the subdirectories are mapped
through `loadDynamicExtension` with a per-entry `try`/`catch` that logs
and yields `undefined`, and the `undefined` entries are filtered out of
the result. -/
def loadDynamicExtensions (dir : ExtensionsDir) : LoadResult :=
  if !dir.present then
    { registrations := [], createdDir := true }
  else
    let res : List (Option IRegisteredExtension) :=
      (dir.entries.filter (fun e => e.isDirectory)).map (fun e =>
        match loadDynamicExtension e with
        | Except.ok reg => reg
        | Except.error _ => none)
    { registrations := res.filter (fun reg => reg ≠ none), createdDir := false }

/-! ### Concrete sample objects used to instantiate the theorems -/

/-- A sample validation failure entry. -/
def daContinue : DisabledAction :=
  { id := "inp", actions := ["Continue"], errorText := "must not be empty" }

/-- A sample `condition` callback. -/
def sampleCondition : DialogContentData → List DisabledAction := fun _ => [daContinue]

/-- A sample checkbox. -/
def sampleCheckbox : ICheckbox := { id := "cb1", text := "Check me", value := false }

/-- A sample radio choice, initially selected. -/
def sampleChoiceA : ICheckbox := { id := "optA", text := "Option A", value := true }

/-- A sample radio choice, initially unselected. -/
def sampleChoiceB : ICheckbox := { id := "optB", text := "Option B", value := false }

/-- A sample text input. -/
def sampleInput : IInput := { id := "inp", value := some "hello" }

/-- A sample dialog content data record. -/
def sampleData : DialogContentData :=
  { checkboxes := some [sampleCheckbox],
    choices := some [sampleChoiceA, sampleChoiceB],
    input := some [sampleInput] }

/-- A sample dialog content with a condition. -/
def sampleContent : IDialogContent :=
  { data := sampleData, condition := some sampleCondition }

/-- A sample queued dialog. -/
def sampleDialog : IDialog :=
  { id := "dlg1", type := "info", title := "Hello", content := sampleContent,
    actions := ["Continue", "Cancel"], defaultAction := some "Continue" }

/-- A sample component state holding the sample content. -/
def sampleState : IComponentState :=
  { currentDialogId := none, dialogState := some sampleContent,
    disabledActions := some [] }

/-- A sample state-change callback that throws when invoked. -/
def cbThrowing : StateCallback := { id := 1, throws := true }

/-- A sample state-change callback that returns normally. -/
def cbNormal : StateCallback := { id := 2, throws := false }

/-- Two sample registrations whose watch paths differ but share the
`'.'`-joined key `"session.settings"`. -/
def sampleRegs : List (List String × StateCallback) :=
  [(["session", "settings"], cbThrowing), (["session.settings"], cbNormal)]

/-- A sample extensions directory: one loadable extension, one whose
`require` throws, one without `index.js`, and a stray file. -/
def sampleDir : ExtensionsDir :=
  { present := true,
    entries :=
      [ { name := "good", isDirectory := true, hasIndexJs := true,
          requireResult := Except.ok 7 },
        { name := "broken", isDirectory := true, hasIndexJs := true,
          requireResult := Except.error "SyntaxError" },
        { name := "empty", isDirectory := true, hasIndexJs := false,
          requireResult := Except.ok 0 },
        { name := "stray.txt", isDirectory := false, hasIndexJs := false,
          requireResult := Except.ok 0 } ] }

/-! ## Theorems -/

/-! ### Association-list (JS object) lemmas -/

theorem jsSet_lookup_self {α : Type} (l : List (String × α)) (k : String) (v : α) :
    (jsSet l k v).lookup k = some v := by
  induction l with
  | nil => simp [jsSet, List.lookup_cons]
  | cons p rest ih =>
    obtain ⟨k1, v1⟩ := p
    by_cases h : k1 = k
    · subst h
      simp [jsSet, List.lookup_cons]
    · simp only [jsSet, if_neg h]
      rw [List.lookup_cons]
      have hb : (k == k1) = false := by
        simp [Ne.symm h]
      rw [hb]
      exact ih

theorem jsSet_lookup_ne {α : Type} (l : List (String × α)) (k k2 : String) (v : α)
    (h : k2 ≠ k) : (jsSet l k v).lookup k2 = l.lookup k2 := by
  induction l with
  | nil =>
    simp only [jsSet, List.lookup_cons]
    have hb : (k2 == k) = false := by simp [h]
    rw [hb]
  | cons p rest ih =>
    obtain ⟨k1, v1⟩ := p
    by_cases h1 : k1 = k
    · subst h1
      rw [show jsSet ((k1, v1) :: rest) k1 v = (k1, v) :: rest from by simp [jsSet]]
      rw [List.lookup_cons, List.lookup_cons]
      have hb : (k2 == k1) = false := by simp [h]
      rw [hb]
    · rw [show jsSet ((k1, v1) :: rest) k v = (k1, v1) :: jsSet rest k v from by
        simp [jsSet, h1]]
      rw [List.lookup_cons, List.lookup_cons]
      cases hb : (k2 == k1) with
      | true => rfl
      | false => exact ih

theorem foldl_jsSet_lookup_of_not_mem {α β : Type} (key : α → String) (val : α → β)
    (L : List α) (acc : List (String × β)) (k : String) (hk : k ∉ L.map key) :
    (L.foldl (fun a w => jsSet a (key w) (val w)) acc).lookup k = acc.lookup k := by
  induction L generalizing acc with
  | nil => rfl
  | cons w rest ih =>
    simp only [List.map_cons, List.mem_cons, not_or] at hk
    rw [List.foldl_cons, ih _ hk.2, jsSet_lookup_ne _ _ _ _ hk.1]

theorem foldl_jsSet_lookup_of_mem {α β : Type} (key : α → String) (val : α → β) :
    ∀ (L : List α) (acc : List (String × β)), (L.map key).Nodup →
    ∀ w ∈ L, (L.foldl (fun a x => jsSet a (key x) (val x)) acc).lookup (key w) = some (val w) := by
  intro L
  induction L with
  | nil => intro acc _ w hw; cases hw
  | cons x rest ih =>
    intro acc hnd w hw
    simp only [List.map_cons, List.nodup_cons] at hnd
    rw [List.foldl_cons]
    rcases List.mem_cons.mp hw with h | h
    · subst h
      rw [foldl_jsSet_lookup_of_not_mem key val rest _ _ hnd.1, jsSet_lookup_self]
    · exact ih _ hnd.2 w h

/-! ### Splitting lemmas -/

theorem jsSplit_ne_nil (sep : Char) (cs : List Char) : jsSplit sep cs ≠ [] := by
  induction cs with
  | nil => simp [jsSplit]
  | cons c rest ih =>
    simp only [jsSplit]
    by_cases h : c = sep
    · simp [h]
    · rw [if_neg h]
      cases hs : jsSplit sep rest with
      | nil => simp
      | cons hd tl => simp

theorem jsSplitString_ne_nil (sep : Char) (s : String) : jsSplitString sep s ≠ [] := by
  unfold jsSplitString
  intro h
  rw [List.map_eq_nil_iff] at h
  exact jsSplit_ne_nil sep s.data h

theorem dropLast_cons_of_ne_nil {α : Type} (a : α) (l : List α) (h : l ≠ []) :
    (a :: l).dropLast = a :: l.dropLast := by
  cases l with
  | nil => exact absurd rfl h
  | cons b t => exact List.dropLast_cons₂

/-! ### `parseList` structure lemmas -/

theorem parseStep_eq (st : List ListEntry × Option ListEntry) (line : String) :
    parseStep st line =
      match lineKV line with
      | some kv => kvStep st kv
      | none => st := by
  unfold parseStep lineKV kvStep
  rcases h : jsSplitString '=' (jsTrim line) with _ | ⟨key, _ | ⟨value, _ | ⟨c, t⟩⟩⟩ <;> rfl

theorem foldl_parseStep_eq (lines : List String) (st : List ListEntry × Option ListEntry) :
    lines.foldl parseStep st = (lines.filterMap lineKV).foldl kvStep st := by
  induction lines generalizing st with
  | nil => rfl
  | cons line rest ih =>
    rw [List.foldl_cons, parseStep_eq]
    cases h : lineKV line with
    | none =>
      rw [List.filterMap_cons_none h]
      exact ih st
    | some kv =>
      rw [List.filterMap_cons_some h, List.foldl_cons]
      exact ih (kvStep st kv)

theorem buildEntries_ne_nil (kvs : List (String × String)) (cur : ListEntry) :
    buildEntries (some cur) kvs ≠ [] := by
  induction kvs generalizing cur with
  | nil => simp [buildEntries]
  | cons kv rest ih =>
    obtain ⟨k, v⟩ := kv
    by_cases h : k = "Path"
    · simp [buildEntries, h]
    · simp only [buildEntries, if_neg h]
      exact ih _

theorem foldl_kvStep_eq_dropLast (kvs : List (String × String)) (res : List ListEntry)
    (cur : Option ListEntry) :
    (kvs.foldl kvStep (res, cur)).1 = res ++ (buildEntries cur kvs).dropLast := by
  induction kvs generalizing res cur with
  | nil =>
    cases cur with
    | none => simp [buildEntries]
    | some c => simp [buildEntries]
  | cons kv rest ih =>
    obtain ⟨k, v⟩ := kv
    rw [List.foldl_cons]
    by_cases h : k = "Path"
    · cases cur with
      | some c =>
        rw [show kvStep (res, some c) (k, v) = (res ++ [c], some [("path", v)]) from by
          simp [kvStep, h]]
        rw [ih]
        rw [show buildEntries (some c) ((k, v) :: rest)
              = c :: buildEntries (some [("path", v)]) rest from by
          simp [buildEntries, h]]
        rw [dropLast_cons_of_ne_nil _ _ (buildEntries_ne_nil _ _)]
        simp
      | none =>
        rw [show kvStep (res, none) (k, v) = (res, some [("path", v)]) from by
          simp [kvStep, h]]
        rw [ih]
        rw [show buildEntries none ((k, v) :: rest)
              = buildEntries (some [("path", v)]) rest from by
          simp [buildEntries, h]]
    · cases cur with
      | some c =>
        rw [show kvStep (res, some c) (k, v) = (res, some (jsSet c k v)) from by
          simp [kvStep, h]]
        rw [ih]
        rw [show buildEntries (some c) ((k, v) :: rest)
              = buildEntries (some (jsSet c k v)) rest from by
          simp [buildEntries, h]]
      | none =>
        rw [show kvStep (res, none) (k, v) = (res, none) from by
          simp [kvStep, h]]
        rw [ih]
        rw [show buildEntries none ((k, v) :: rest) = buildEntries none rest from by
          simp [buildEntries, h]]

/-- C2 (counterexample): on the single-line input `"Path=a"` — one line
of the form `Path=<value>` — the claimed grouping has one entry, but
`parseList` returns the empty list: the loop only pushes an entry when
the *next* `Path=` line arrives, and the entry still open when the
input ends is discarded. -/
theorem parseList_claim_counterexample :
    specParseList "Path=a" = [[("path", "a")]] ∧ parseList "Path=a" = [] := by
  constructor <;> decide

/-- C2 (amended): `parseList` returns one entry per line of the form
`Path=<value>` *except the last one*: it equals the claimed grouping
(one entry per `Path=` line in input order, each carrying the key=value
lines up to the next `Path=` line, lines that do not split on `=` into
exactly two parts ignored) with its final entry dropped. -/
theorem parseList_eq_specParseList_dropLast (input : String) :
    parseList input = (specParseList input).dropLast := by
  unfold parseList specParseList
  rw [foldl_parseStep_eq, foldl_kvStep_eq_dropLast]
  rfl

/-- C9: for every command, parameter list and options value,
`ARCWrapper.run` spawns the fixed executable `ARCtool.exe` — never any
other program — with the argument list `-` prepended to the command,
then the game selector (the options' `game` value when given, `-DD`
otherwise), then `-pc`, followed by the given parameters. -/
theorem arc_run_spawn_args (command : String) (parameters : List String)
    (options : IARCOptions) :
    (runSpawn command parameters options).1 = "ARCtool.exe" ∧
    (runSpawn command parameters options).2 =
      ["-" ++ command, options.game.elim "-DD" ArcGame.str, "-pc"] ++ parameters := by
  cases hg : options.game with
  | none => exact ⟨rfl, by simp [runSpawn, hg]⟩
  | some g => exact ⟨rfl, by simp [runSpawn, hg]⟩

/-- C10: the Skyrim SE game descriptor is constant data: id
`skyrimse`, `mergeMods` true, `queryModPath` always `./data` (a
relative path — it starts with `./`), `executable` always
`SkyrimSE.exe`, and `supportedTools` lists exactly the four tools
SSEEdit, WryeBash, LOOT and FNIS. -/
theorem skyrimse_descriptor_constants :
    game.id = "skyrimse" ∧
    game.mergeMods = true ∧
    game.queryModPath () = "./data" ∧
    jsStartsWith (game.queryModPath ()) "./" = true ∧
    game.executable () = "SkyrimSE.exe" ∧
    game.supportedTools.map ITool.name = ["SSEEdit", "WryeBash", "LOOT", "FNIS"] := by
  refine ⟨rfl, rfl, rfl, by decide, rfl, rfl⟩

/-! ### `ARCWrapper.run` settlement -/

theorem foldl_append_acc {α β : Type} (g : α → List β) (events : List α) (acc : List β) :
    events.foldl (fun a ev => a ++ g ev) acc
      = acc ++ events.foldl (fun a ev => a ++ g ev) [] := by
  induction events generalizing acc with
  | nil => simp
  | cons ev rest ih =>
    rw [List.foldl_cons, List.foldl_cons, ih (acc ++ g ev), ih ([] ++ g ev)]
    simp

theorem errorLinesOf_cons (ev : StreamEvent) (events : List StreamEvent) :
    errorLinesOf (ev :: events) = evErrorLines ev ++ errorLinesOf events := by
  unfold errorLinesOf
  rw [List.foldl_cons, foldl_append_acc]
  simp

theorem errorLinesOf_ne_nil_iff (events : List StreamEvent) :
    errorLinesOf events ≠ [] ↔ ∃ ev ∈ events, evErrorLines ev ≠ [] := by
  induction events with
  | nil => simp [errorLinesOf]
  | cons ev rest ih =>
    rw [errorLinesOf_cons, Ne, List.append_eq_nil, not_and_or, ← Ne, ← Ne, ih]
    constructor
    · rintro (h | ⟨x, hx, hxe⟩)
      · exact ⟨ev, List.mem_cons_self ev rest, h⟩
      · exact ⟨x, List.mem_cons_of_mem ev hx, hxe⟩
    · rintro ⟨x, hx, hxe⟩
      rcases List.mem_cons.mp hx with h | h
      · subst h; exact Or.inl hxe
      · exact Or.inr ⟨x, h, hxe⟩

/-- C3: the settlement of `ARCWrapper.run`'s promise, computed by its
`close` handler: it resolves iff the exit code is 0 and no error line
was collected; it rejects naming the status code whenever the exit code
is non-zero; it rejects with the newline-joined collected error lines
when the exit code is 0 but some were collected; and error lines were
collected exactly when some stdout line starts with `Error` or any
stderr data was received. -/
theorem arc_run_settlement_spec (events : List StreamEvent) (code : Int) :
    (runClose events code = Except.ok () ↔ code = 0 ∧ errorLinesOf events = []) ∧
    (code ≠ 0 →
      runClose events code =
        Except.error ("ARCtool.exe failed with status code " ++ toString code)) ∧
    (code = 0 → errorLinesOf events ≠ [] →
      runClose events code = Except.error (String.intercalate "\n" (errorLinesOf events))) ∧
    (errorLinesOf events ≠ [] ↔
      ((∃ data line, StreamEvent.stdout data ∈ events ∧ line ∈ jsSplitString '\n' data ∧
          jsStartsWith line "Error" = true) ∨
        (∃ data, StreamEvent.stderr data ∈ events))) := by
  refine ⟨?_, ?_, ?_, ?_⟩
  · constructor
    · intro h
      unfold runClose at h
      split_ifs at h with h1 h2
      exact ⟨not_not.mp h1, not_not.mp h2⟩
    · rintro ⟨h0, he⟩
      simp [runClose, h0, he]
  · intro h
    simp [runClose, h]
  · intro h0 he
    simp [runClose, h0, he]
  · rw [errorLinesOf_ne_nil_iff]
    constructor
    · rintro ⟨ev, hev, hne⟩
      cases ev with
      | stdout d =>
        left
        simp only [evErrorLines] at hne
        obtain ⟨line, hl⟩ := List.exists_mem_of_ne_nil _ hne
        rw [List.mem_filter] at hl
        exact ⟨d, line, hev, hl.1, hl.2⟩
      | stderr d =>
        right
        exact ⟨d, hev⟩
    · rintro (⟨d, line, hd, hl, hstarts⟩ | ⟨d, hd⟩)
      · refine ⟨StreamEvent.stdout d, hd, ?_⟩
        simp only [evErrorLines]
        intro h
        rw [List.eq_nil_iff_forall_not_mem] at h
        exact h line (List.mem_filter.mpr ⟨hl, hstarts⟩)
      · refine ⟨StreamEvent.stderr d, hd, ?_⟩
        simpa [evErrorLines] using jsSplitString_ne_nil '\n' d

/-- C3 witness: with a single stderr chunk `"boom"` and exit code 0 the
promise rejects with `"boom"`. -/
theorem arc_run_settlement_spec_witness :
    (0 : Int) = 0 ∧ errorLinesOf [StreamEvent.stderr "boom"] ≠ [] ∧
    runClose [StreamEvent.stderr "boom"] 0 = Except.error "boom" := by
  have h := (arc_run_settlement_spec [StreamEvent.stderr "boom"] 0).2.2.1 rfl (by decide)
  refine ⟨rfl, by decide, ?_⟩
  rw [h]
  decide

/-! ### `loadDynamicExtensions` -/

theorem loadDyn_registrations_eq (entries : List FSEntry) :
    ((entries.filter (fun e => e.isDirectory)).map (fun e =>
        match loadDynamicExtension e with
        | Except.ok reg => reg
        | Except.error _ => none)).filter (fun reg => reg ≠ none)
      = entries.filterMap (fun e =>
          if e.isDirectory then
            if e.hasIndexJs then
              match e.requireResult with
              | Except.ok f => some (some { name := e.name, initFunc := f })
              | Except.error _ => none
            else none
          else none) := by
  induction entries with
  | nil => rfl
  | cons e rest ih =>
    cases hd : e.isDirectory with
    | false =>
      rw [List.filter_cons_of_neg (by simp [hd]), List.filterMap_cons_none (by simp [hd])]
      exact ih
    | true =>
      rw [List.filter_cons_of_pos (by simp [hd]), List.map_cons]
      cases hij : e.hasIndexJs with
      | false =>
        rw [List.filter_cons_of_neg (by simp [loadDynamicExtension, hij]),
          List.filterMap_cons_none (by simp [hd, hij])]
        exact ih
      | true =>
        cases hr : e.requireResult with
        | ok f =>
          have hload : loadDynamicExtension e
              = Except.ok (some { name := e.name, initFunc := f }) := by
            simp [loadDynamicExtension, hij, hr]
          rw [show (match loadDynamicExtension e with
              | Except.ok reg => reg
              | Except.error _ => none)
              = some ({ name := e.name, initFunc := f } : IRegisteredExtension) from by
            rw [hload]]
          rw [List.filter_cons_of_pos (by simp), ih, List.filterMap_cons]
          simp [hd, hij, hr]
        | error msg =>
          rw [List.filter_cons_of_neg (by simp [loadDynamicExtension, hij, hr]),
            List.filterMap_cons_none (by simp [hd, hij, hr])]
          exact ih

theorem none_not_mem_filter_ne_none {α : Type} [DecidableEq α] (l : List (Option α)) :
    Option.none ∉ l.filter (fun reg => reg ≠ none) := by
  intro hmem
  rcases List.mem_filter.mp hmem with ⟨_, hfalse⟩
  simp at hfalse

/-- C4: `loadDynamicExtensions` returns exactly one registration (name
and init function) per subdirectory whose `index.js` module loads
without error, in directory order; subdirectories lacking `index.js` or
whose load throws are skipped without aborting the load, the result
contains no `undefined` entry, and a missing extensions directory is
created and yields the empty list. -/
theorem loadDynamicExtensions_spec (dir : ExtensionsDir) :
    (dir.present = false →
      loadDynamicExtensions dir = { registrations := [], createdDir := true }) ∧
    (dir.present = true →
      (loadDynamicExtensions dir).createdDir = false ∧
      (loadDynamicExtensions dir).registrations =
        dir.entries.filterMap (fun e =>
          if e.isDirectory then
            if e.hasIndexJs then
              match e.requireResult with
              | Except.ok f => some (some { name := e.name, initFunc := f })
              | Except.error _ => none
            else none
          else none) ∧
      Option.none ∉ (loadDynamicExtensions dir).registrations) := by
  constructor
  · intro h
    simp [loadDynamicExtensions, h]
  · intro h
    refine ⟨by simp [loadDynamicExtensions, h], ?_, ?_⟩
    · rw [show (loadDynamicExtensions dir).registrations
          = ((dir.entries.filter (fun e => e.isDirectory)).map (fun e =>
              match loadDynamicExtension e with
              | Except.ok reg => reg
              | Except.error _ => none)).filter (fun reg => reg ≠ none) from by
        simp [loadDynamicExtensions, h]]
      exact loadDyn_registrations_eq dir.entries
    · rw [show (loadDynamicExtensions dir).registrations
          = ((dir.entries.filter (fun e => e.isDirectory)).map (fun e =>
              match loadDynamicExtension e with
              | Except.ok reg => reg
              | Except.error _ => none)).filter (fun reg => reg ≠ none) from by
        simp [loadDynamicExtensions, h]]
      exact none_not_mem_filter_ne_none _

/-- C4 witness: on the sample directory (a loadable extension, a
throwing one, one without `index.js`, a stray file) exactly the
loadable one is registered and no `undefined` entry remains. -/
theorem loadDynamicExtensions_spec_witness :
    sampleDir.present = true ∧
    (loadDynamicExtensions sampleDir).registrations =
      [some { name := "good", initFunc := 7 }] ∧
    Option.none ∉ (loadDynamicExtensions sampleDir).registrations := by
  have h := (loadDynamicExtensions_spec sampleDir).2 rfl
  refine ⟨rfl, ?_, h.2.2⟩
  rw [h.2.1]
  decide

/-! ### `Dialog.render` -/

/-- C1: the component renders exactly the first queued dialog — its
title, its type icon, the dialog content held in component state (one
action button per entry of its actions list, in order) — and renders
`null` when the queue is empty or no dialog content has been taken
into component state. -/
theorem dialog_render_spec (d : IDialog) (rest : List IDialog) (c : IDialogContent)
    (st : IComponentState) :
    (render [] st = none) ∧
    (st.dialogState = none → render (d :: rest) st = none) ∧
    (st.dialogState = some c →
      ∃ r, render (d :: rest) st = some r ∧
        r.title = d.title ∧
        r.icon = iconForType d.type ∧
        r.content = renderContent c ∧
        r.actionButtons.map RenderedAction.action = d.actions) := by
  refine ⟨?_, ?_, ?_⟩
  · cases h : st.dialogState <;> simp [render]
  · intro hs
    simp [render, hs]
  · intro hs
    have hr : render (d :: rest) st = some
        { modalClass := "common-dialog-" ++
            (if d.content.data.htmlFile ≠ none ∨ d.content.data.htmlText ≠ none
              then "wide" else "regular"),
          icon := iconForType d.type,
          title := d.title,
          content := renderContent c,
          actionButtons := d.actions.map (fun action =>
            renderAction (st.disabledActions.getD []) action
              (some action = d.defaultAction)) } := by
      simp [render, hs]
    refine ⟨_, hr, rfl, rfl, rfl, ?_⟩
    rw [List.map_map]
    have : (RenderedAction.action ∘ fun action =>
        renderAction (st.disabledActions.getD []) action (some action = d.defaultAction))
        = fun action => action := by
      funext action
      rfl
    rw [this]
    simp

/-- C1 witness: on the sample dialog and state, the rendered modal
carries the dialog's title, info icon, the state's content and one
button per action. -/
theorem dialog_render_spec_witness :
    sampleState.dialogState = some sampleContent ∧
    ∃ r, render [sampleDialog] sampleState = some r ∧
      r.title = "Hello" ∧
      r.icon = some { name := "dialog-info", className := "icon-info" } ∧
      r.content = renderContent sampleContent ∧
      r.actionButtons.map RenderedAction.action = ["Continue", "Cancel"] := by
  obtain ⟨r, hr, ht, hi, hc, ha⟩ :=
    (dialog_render_spec sampleDialog [] sampleContent sampleState).2.2 rfl
  exact ⟨rfl, r, hr, ht, hi.trans (by decide), hc, ha⟩

/-! ### `Dialog.dismiss` -/

theorem dismiss_eq (d : IDialog) (rest : List IDialog) (st : IComponentState)
    (content : IDialogContent) (action : String) (hs : st.dialogState = some content) :
    dismiss (d :: rest) st action = some
      { id := d.id, action := action,
        data := (content.data.input.getD []).foldl
          (fun acc inp => jsSet acc inp.id (DialogValue.str inp.value))
          ((content.data.choices.getD []).foldl
            (fun acc box => jsSet acc box.id (DialogValue.bool box.value))
            ((content.data.checkboxes.getD []).foldl
              (fun acc box => jsSet acc box.id (DialogValue.bool box.value)) [])) } := by
  unfold dismiss
  rw [hs]
  dsimp only
  rcases hcb : content.data.checkboxes with _ | cbs <;>
    rcases hch : content.data.choices with _ | chs <;>
      rcases hin : content.data.input with _ | inps <;>
        rfl

/-- C5: pressing an action button of the displayed dialog calls
`onDismiss` exactly once (the model returns exactly one call), with the
first queued dialog's id, the pressed action's name, and a record
mapping every checkbox id, every choice id and every input id of the
current dialog state to that widget's current value (the ids being
pairwise distinct, as a JS object keys the record). -/
theorem dialog_dismiss_spec (dialogs : List IDialog) (st : IComponentState) (action : String)
    (d : IDialog) (rest : List IDialog) (content : IDialogContent)
    (hd : dialogs = d :: rest) (hs : st.dialogState = some content)
    (hids : (((content.data.checkboxes.getD []).map ICheckbox.id)
        ++ ((content.data.choices.getD []).map ICheckbox.id)
        ++ ((content.data.input.getD []).map IInput.id)).Nodup) :
    ∃ call, dismiss dialogs st action = some call ∧
      call.id = d.id ∧ call.action = action ∧
      (∀ box ∈ content.data.checkboxes.getD [],
        call.data.lookup box.id = some (DialogValue.bool box.value)) ∧
      (∀ box ∈ content.data.choices.getD [],
        call.data.lookup box.id = some (DialogValue.bool box.value)) ∧
      (∀ inp ∈ content.data.input.getD [],
        call.data.lookup inp.id = some (DialogValue.str inp.value)) := by
  subst hd
  have he := dismiss_eq d rest st content action hs
  rw [List.nodup_append] at hids
  obtain ⟨hAB, hC, hdisjABC⟩ := hids
  rw [List.nodup_append] at hAB
  obtain ⟨hA, hB, hdisjAB⟩ := hAB
  refine ⟨_, he, rfl, rfl, ?_, ?_, ?_⟩
  · intro box hbox
    have hidA : box.id ∈ (content.data.checkboxes.getD []).map ICheckbox.id :=
      List.mem_map_of_mem _ hbox
    have hnotC : box.id ∉ (content.data.input.getD []).map IInput.id :=
      List.disjoint_left.mp hdisjABC (List.mem_append.mpr (Or.inl hidA))
    have hnotB : box.id ∉ (content.data.choices.getD []).map ICheckbox.id :=
      List.disjoint_left.mp hdisjAB hidA
    calc ((content.data.input.getD []).foldl
          (fun acc inp => jsSet acc inp.id (DialogValue.str inp.value))
          ((content.data.choices.getD []).foldl
            (fun acc box => jsSet acc box.id (DialogValue.bool box.value))
            ((content.data.checkboxes.getD []).foldl
              (fun acc box => jsSet acc box.id (DialogValue.bool box.value)) []))).lookup box.id
        = ((content.data.choices.getD []).foldl
            (fun acc box => jsSet acc box.id (DialogValue.bool box.value))
            ((content.data.checkboxes.getD []).foldl
              (fun acc box => jsSet acc box.id (DialogValue.bool box.value)) [])).lookup box.id :=
          foldl_jsSet_lookup_of_not_mem IInput.id (fun inp => DialogValue.str inp.value)
            _ _ _ hnotC
      _ = ((content.data.checkboxes.getD []).foldl
            (fun acc box => jsSet acc box.id (DialogValue.bool box.value)) []).lookup box.id :=
          foldl_jsSet_lookup_of_not_mem ICheckbox.id (fun box => DialogValue.bool box.value)
            _ _ _ hnotB
      _ = some (DialogValue.bool box.value) :=
          foldl_jsSet_lookup_of_mem ICheckbox.id (fun box => DialogValue.bool box.value)
            _ _ hA box hbox
  · intro box hbox
    have hidB : box.id ∈ (content.data.choices.getD []).map ICheckbox.id :=
      List.mem_map_of_mem _ hbox
    have hnotC2 : box.id ∉ (content.data.input.getD []).map IInput.id :=
      List.disjoint_left.mp hdisjABC (List.mem_append.mpr (Or.inr hidB))
    calc ((content.data.input.getD []).foldl
          (fun acc inp => jsSet acc inp.id (DialogValue.str inp.value))
          ((content.data.choices.getD []).foldl
            (fun acc box => jsSet acc box.id (DialogValue.bool box.value))
            ((content.data.checkboxes.getD []).foldl
              (fun acc box => jsSet acc box.id (DialogValue.bool box.value)) []))).lookup box.id
        = ((content.data.choices.getD []).foldl
            (fun acc box => jsSet acc box.id (DialogValue.bool box.value))
            ((content.data.checkboxes.getD []).foldl
              (fun acc box => jsSet acc box.id (DialogValue.bool box.value)) [])).lookup box.id :=
          foldl_jsSet_lookup_of_not_mem IInput.id (fun inp => DialogValue.str inp.value)
            _ _ _ hnotC2
      _ = some (DialogValue.bool box.value) :=
          foldl_jsSet_lookup_of_mem ICheckbox.id (fun box => DialogValue.bool box.value)
            _ _ hB box hbox
  · intro inp hinp
    exact foldl_jsSet_lookup_of_mem IInput.id (fun inp => DialogValue.str inp.value)
      _ _ hC inp hinp

/-- C5 witness: on the sample dialog (one checkbox, two choices, one
input, pairwise distinct ids) the single `onDismiss` call carries the
dialog id, the action, and every widget's value. -/
theorem dialog_dismiss_spec_witness :
    ((((sampleContent.data.checkboxes.getD []).map ICheckbox.id)
        ++ ((sampleContent.data.choices.getD []).map ICheckbox.id)
        ++ ((sampleContent.data.input.getD []).map IInput.id)).Nodup) ∧
    (∃ call, dismiss [sampleDialog] sampleState "Continue" = some call ∧
      call.id = sampleDialog.id ∧ call.action = "Continue" ∧
      (∀ box ∈ sampleContent.data.checkboxes.getD [],
        call.data.lookup box.id = some (DialogValue.bool box.value)) ∧
      (∀ box ∈ sampleContent.data.choices.getD [],
        call.data.lookup box.id = some (DialogValue.bool box.value)) ∧
      (∀ inp ∈ sampleContent.data.input.getD [],
        call.data.lookup inp.id = some (DialogValue.str inp.value))) :=
  ⟨by decide,
    dialog_dismiss_spec [sampleDialog] sampleState "Continue" sampleDialog [] sampleContent
      rfl rfl (by decide)⟩

/-! ### `Dialog` validation invariant -/

theorem validateContent_eq (st : IComponentState) (c : IDialogContent)
    (das : List DisabledAction) (f : DialogContentData → List DisabledAction)
    (hda : st.disabledActions = some das) (hc : c.condition = some f) :
    validateContent st c = some (f c.data) := by
  unfold validateContent
  rw [hda, hc]
  dsimp only
  cases hfl : f c.data with
  | nil => simp
  | cons a l => simp

theorem applyValidation_eq (st newState : IComponentState) (c : IDialogContent)
    (das : List DisabledAction) (f : DialogContentData → List DisabledAction)
    (hda : st.disabledActions = some das) (hc : c.condition = some f) :
    applyValidation st newState c = { newState with disabledActions := some (f c.data) } := by
  unfold applyValidation
  rw [validateContent_eq st c das f hda hc]

theorem applyValidation_dialogState (old newState : IComponentState) (c : IDialogContent) :
    (applyValidation old newState c).dialogState = newState.dialogState := by
  unfold applyValidation
  cases validateContent old c <;> rfl

theorem applyValidation_disabledActions (st newState : IComponentState) (c : IDialogContent)
    (das : List DisabledAction) (f : DialogContentData → List DisabledAction)
    (hda : st.disabledActions = some das) (hc : c.condition = some f) :
    (applyValidation st newState c).disabledActions = some (f c.data) := by
  rw [applyValidation_eq st newState c das f hda hc]

theorem changeInput_eq (st : IComponentState) (content : IDialogContent)
    (inputs : List IInput) (domId newValue : String) (old : IInput)
    (hs : st.dialogState = some content) (hin : content.data.input = some inputs)
    (hold : inputs[inputs.findIdx (fun form => form.id = inputDomToId domId)]? = some old) :
    changeInput st domId newValue =
      applyValidation st
        { st with dialogState := some { content with data := { content.data with
            input := some (inputs.set
              (inputs.findIdx (fun form => form.id = inputDomToId domId))
              { old with value := some newValue }) } } }
        { content with data := { content.data with
            input := some (inputs.set
              (inputs.findIdx (fun form => form.id = inputDomToId domId))
              { old with value := some newValue }) } } := by
  unfold changeInput
  rw [hs]
  dsimp only
  rw [hin]
  dsimp only
  rw [hold]

theorem toggleCheckbox_eq (st : IComponentState) (content : IDialogContent)
    (boxes : List ICheckbox) (domId : String) (old : ICheckbox)
    (hs : st.dialogState = some content) (hcb : content.data.checkboxes = some boxes)
    (hold : boxes[boxes.findIdx (fun box => box.id = domId)]? = some old) :
    toggleCheckbox st domId =
      applyValidation st
        { st with dialogState := some { content with data := { content.data with
            checkboxes := some (boxes.set
              (boxes.findIdx (fun box => box.id = domId))
              { old with value := !old.value }) } } }
        { content with data := { content.data with
            checkboxes := some (boxes.set
              (boxes.findIdx (fun box => box.id = domId))
              { old with value := !old.value }) } } := by
  unfold toggleCheckbox
  rw [hs]
  dsimp only
  rw [hcb]
  dsimp only
  rw [hold]

theorem toggleRadio_eq (st : IComponentState) (content : IDialogContent)
    (choices : List ICheckbox) (domId : String) (clicked : ICheckbox)
    (hs : st.dialogState = some content) (hch : content.data.choices = some choices)
    (hold : choices[choices.findIdx (fun box => box.id = domId)]? = some clicked) :
    toggleRadio st domId =
      applyValidation st
        { st with dialogState := some { content with data := { content.data with
            choices := some ((choices.map
                (fun choice => ICheckbox.mk choice.id choice.text false)).set
              (choices.findIdx (fun box => box.id = domId))
              (ICheckbox.mk clicked.id clicked.text true)) } } }
        { content with data := { content.data with
            choices := some ((choices.map
                (fun choice => ICheckbox.mk choice.id choice.text false)).set
              (choices.findIdx (fun box => box.id = domId))
              (ICheckbox.mk clicked.id clicked.text true)) } } := by
  unfold toggleRadio
  rw [hs]
  dsimp only
  rw [hch]
  dsimp only
  rw [hold]

/-- C6: after every dialog switch (new queue head id) and after every
widget change (input edit, checkbox toggle, radio selection), the
component's `disabledActions` equals the result of applying the current
content's condition function to the current content (the empty list
when the condition yields no entries — the handlers re-set an empty
result to `[]`, which is the same list). -/
theorem disabledActions_validation_spec (st : IComponentState)
    (das : List DisabledAction) (hda : st.disabledActions = some das) :
    (∀ (d : IDialog) (rest : List IDialog) (f : DialogContentData → List DisabledAction),
      d.content.condition = some f → some d.id ≠ st.currentDialogId →
      (componentWillReceiveProps st (d :: rest)).disabledActions
        = some (f d.content.data)) ∧
    (∀ (content : IDialogContent) (f : DialogContentData → List DisabledAction)
      (inputs : List IInput) (domId newValue : String),
      st.dialogState = some content → content.condition = some f →
      content.data.input = some inputs →
      (∃ form ∈ inputs, form.id = inputDomToId domId) →
      ∃ c2, (changeInput st domId newValue).dialogState = some c2 ∧
        c2.condition = some f ∧
        (changeInput st domId newValue).disabledActions = some (f c2.data)) ∧
    (∀ (content : IDialogContent) (f : DialogContentData → List DisabledAction)
      (boxes : List ICheckbox) (domId : String),
      st.dialogState = some content → content.condition = some f →
      content.data.checkboxes = some boxes →
      (∃ box ∈ boxes, box.id = domId) →
      ∃ c2, (toggleCheckbox st domId).dialogState = some c2 ∧
        c2.condition = some f ∧
        (toggleCheckbox st domId).disabledActions = some (f c2.data)) ∧
    (∀ (content : IDialogContent) (f : DialogContentData → List DisabledAction)
      (choices : List ICheckbox) (domId : String),
      st.dialogState = some content → content.condition = some f →
      content.data.choices = some choices →
      (∃ box ∈ choices, box.id = domId) →
      ∃ c2, (toggleRadio st domId).dialogState = some c2 ∧
        c2.condition = some f ∧
        (toggleRadio st domId).disabledActions = some (f c2.data)) := by
  refine ⟨?_, ?_, ?_, ?_⟩
  · intro d rest f hc hneq
    unfold componentWillReceiveProps
    dsimp only
    rw [if_neg hneq]
    rw [applyValidation_eq st _ d.content das f hda hc]
  · intro content f inputs domId newValue hs hc hin hfound
    have hidx : inputs.findIdx (fun form => form.id = inputDomToId domId) < inputs.length := by
      apply List.findIdx_lt_length_of_exists
      obtain ⟨form, hmem, hid⟩ := hfound
      exact ⟨form, hmem, by simp [hid]⟩
    have hold := List.getElem?_eq_getElem hidx
    rw [changeInput_eq st content inputs domId newValue _ hs hin hold]
    exact ⟨_, applyValidation_dialogState st _ _, hc,
      applyValidation_disabledActions st _ _ das f hda hc⟩
  · intro content f boxes domId hs hc hcb hfound
    have hidx : boxes.findIdx (fun box => box.id = domId) < boxes.length := by
      apply List.findIdx_lt_length_of_exists
      obtain ⟨box, hmem, hid⟩ := hfound
      exact ⟨box, hmem, by simp [hid]⟩
    have hold := List.getElem?_eq_getElem hidx
    rw [toggleCheckbox_eq st content boxes domId _ hs hcb hold]
    exact ⟨_, applyValidation_dialogState st _ _, hc,
      applyValidation_disabledActions st _ _ das f hda hc⟩
  · intro content f choices domId hs hc hch hfound
    have hidx : choices.findIdx (fun box => box.id = domId) < choices.length := by
      apply List.findIdx_lt_length_of_exists
      obtain ⟨box, hmem, hid⟩ := hfound
      exact ⟨box, hmem, by simp [hid]⟩
    have hold := List.getElem?_eq_getElem hidx
    rw [toggleRadio_eq st content choices domId _ hs hch hold]
    exact ⟨_, applyValidation_dialogState st _ _, hc,
      applyValidation_disabledActions st _ _ das f hda hc⟩

/-- C6 witness: switching the sample state (current id `none`,
`disabledActions` `[]`) to the sample dialog recomputes
`disabledActions` through the dialog's condition. -/
theorem disabledActions_validation_spec_witness :
    sampleState.disabledActions = some [] ∧
    sampleDialog.content.condition = some sampleCondition ∧
    some sampleDialog.id ≠ sampleState.currentDialogId ∧
    (componentWillReceiveProps sampleState [sampleDialog]).disabledActions
      = some (sampleCondition sampleDialog.content.data) :=
  ⟨rfl, rfl, by simp [sampleState],
    (disabledActions_validation_spec sampleState [] rfl).1 sampleDialog [] sampleCondition
      rfl (by simp [sampleState])⟩

/-! ### `Dialog.toggleRadio` -/

/-- C7: whenever the dialog state's choices list contains an entry with
the clicked element's id, after `toggleRadio` exactly one choice has
value `true` — namely the clicked one (the first entry carrying the
clicked id) — and every other choice has value `false`. -/
theorem toggleRadio_unique_selection (st : IComponentState) (content : IDialogContent)
    (choices : List ICheckbox) (domId : String)
    (hs : st.dialogState = some content) (hch : content.data.choices = some choices)
    (hfound : ∃ box ∈ choices, box.id = domId) :
    ∃ (c2 : IDialogContent) (newChoices : List ICheckbox) (idx : Nat)
      (hlt : idx < newChoices.length),
      (toggleRadio st domId).dialogState = some c2 ∧
      c2.data.choices = some newChoices ∧
      newChoices.length = choices.length ∧
      (newChoices.get ⟨idx, hlt⟩).id = domId ∧
      (∀ j (hj : j < newChoices.length),
        ((newChoices.get ⟨j, hj⟩).value = true ↔ j = idx)) := by
  have hidx : choices.findIdx (fun box => box.id = domId) < choices.length := by
    apply List.findIdx_lt_length_of_exists
    obtain ⟨box, hmem, hid⟩ := hfound
    exact ⟨box, hmem, by simp [hid]⟩
  have hold := List.getElem?_eq_getElem hidx
  rw [toggleRadio_eq st content choices domId _ hs hch hold]
  have hp := @List.findIdx_getElem _ (fun box => decide (box.id = domId)) choices hidx
  have hid : (choices.get ⟨choices.findIdx (fun box => box.id = domId), hidx⟩).id = domId := by
    rw [List.get_eq_getElem]
    exact of_decide_eq_true hp
  refine ⟨_, _, choices.findIdx (fun box => box.id = domId), ?_,
    applyValidation_dialogState st _ _, rfl, by simp, ?_, ?_⟩
  · simpa using hidx
  · rw [List.get_eq_getElem, List.getElem_set_self]
    rw [List.get_eq_getElem] at hid
    exact hid
  · intro j hj
    rw [List.get_eq_getElem]
    by_cases hji : j = choices.findIdx (fun box => box.id = domId)
    · subst hji
      rw [List.getElem_set_self]
      simp
    · rw [List.getElem_set_ne (fun h => hji h.symm)]
      rw [List.getElem_map]
      simp [hji]

/-- C7 witness: clicking `optB` in the sample state's two-choice radio
group yields exactly one selected choice, namely `optB`. -/
theorem toggleRadio_unique_selection_witness :
    (∃ box ∈ [sampleChoiceA, sampleChoiceB], box.id = "optB") ∧
    (∃ (c2 : IDialogContent) (newChoices : List ICheckbox) (idx : Nat)
      (hlt : idx < newChoices.length),
      (toggleRadio sampleState "optB").dialogState = some c2 ∧
      c2.data.choices = some newChoices ∧
      newChoices.length = ([sampleChoiceA, sampleChoiceB] : List ICheckbox).length ∧
      (newChoices.get ⟨idx, hlt⟩).id = "optB" ∧
      (∀ j (hj : j < newChoices.length),
        ((newChoices.get ⟨j, hj⟩).value = true ↔ j = idx))) :=
  ⟨⟨sampleChoiceB, by decide, rfl⟩,
    toggleRadio_unique_selection sampleState sampleContent [sampleChoiceA, sampleChoiceB]
      "optB" rfl rfl ⟨sampleChoiceB, by decide, rfl⟩⟩

/-! ### `ExtensionManager.onStateChange` -/

theorem onStateChange_lookup (reg : WatcherRegistry) (p : List String) (cb : StateCallback) :
    (onStateChange reg p cb).lookup (watchKey p)
      = some (((reg.lookup (watchKey p)).getD []) ++ [cb]) := by
  unfold onStateChange
  dsimp only
  cases h : reg.lookup (watchKey p) with
  | none => simp [jsSet_lookup_self]
  | some cbs => simp [jsSet_lookup_self]

theorem onStateChange_accumulate (regs : List (List String × StateCallback)) (k : String) :
    ∀ (reg0 : WatcherRegistry), (∀ pc ∈ regs, watchKey pc.1 = k) →
    (((regs.foldl (fun r pc => onStateChange r pc.1 pc.2) reg0).lookup k).getD []
      = ((reg0.lookup k).getD []) ++ regs.map (fun pc => pc.2)) := by
  induction regs with
  | nil => intro reg0 _; simp
  | cons pc rest ih =>
    intro reg0 hk
    rw [List.foldl_cons, ih _ (fun x hx => hk x (List.mem_cons_of_mem _ hx))]
    have hkey := hk pc (List.mem_cons_self _ _)
    rw [← hkey, onStateChange_lookup]
    simp

theorem runCallbacks_eq_map (cbs : List StateCallback) (p c : Nat) :
    runCallbacks cbs p c = cbs.map (fun cb => (cb.id, p, c)) := by
  induction cbs with
  | nil => rfl
  | cons cb rest ih =>
    unfold runCallbacks
    cases hb : cb.throws <;> simp [ih]

/-- C8: callbacks registered through `onStateChange` for the same watch
path (paths compared by their `'.'`-joined key) accumulate in a single
registry list, and when the watched value changes to a new value every
registered callback is invoked with the previous and current value —
the invocation list covers every callback, throwing ones included,
because the handler's `try`/`catch` lets the loop continue. -/
theorem onStateChange_registry_spec
    (regs : List (List String × StateCallback)) (k : String) (reg0 : WatcherRegistry)
    (hk : ∀ pc ∈ regs, watchKey pc.1 = k)
    (cbs : List StateCallback) (lastValue : Option Nat) (prevValue currentValue : Nat)
    (hchange : some currentValue ≠ lastValue) :
    (((regs.foldl (fun r pc => onStateChange r pc.1 pc.2) reg0).lookup k).getD []
      = ((reg0.lookup k).getD []) ++ regs.map (fun pc => pc.2)) ∧
    ((fireWatch cbs lastValue prevValue currentValue).1
      = cbs.map (fun cb => (cb.id, prevValue, currentValue))) ∧
    (∀ cb ∈ cbs, (cb.id, prevValue, currentValue)
      ∈ (fireWatch cbs lastValue prevValue currentValue).1) := by
  have hfire : (fireWatch cbs lastValue prevValue currentValue).1
      = cbs.map (fun cb => (cb.id, prevValue, currentValue)) := by
    unfold fireWatch
    rw [if_neg hchange]
    exact runCallbacks_eq_map cbs prevValue currentValue
  refine ⟨onStateChange_accumulate regs k reg0 hk, hfire, ?_⟩
  intro cb hcb
  rw [hfire]
  exact List.mem_map_of_mem _ hcb

/-- C8 witness: two registrations whose paths share the joined key
`"session.settings"` accumulate in one list, and on a change from 0
to 5 both callbacks — the throwing one included — are invoked with
`(0, 5)`. -/
theorem onStateChange_registry_spec_witness :
    (∀ pc ∈ sampleRegs, watchKey pc.1 = "session.settings") ∧
    some 5 ≠ (none : Option Nat) ∧
    ((sampleRegs.foldl (fun r pc => onStateChange r pc.1 pc.2) []).lookup
        "session.settings").getD [] = [cbThrowing, cbNormal] ∧
    (fireWatch [cbThrowing, cbNormal] none 0 5).1 = [(1, 0, 5), (2, 0, 5)] := by
  have h := onStateChange_registry_spec sampleRegs "session.settings" [] (by decide)
    [cbThrowing, cbNormal] none 0 5 (by simp)
  refine ⟨by decide, by simp, ?_, ?_⟩
  · rw [h.1]
    decide
  · rw [h.2.1]
    decide

end Vortex
